import Mathlib

/-!
Shallow embedding of the iNaturalist image downloader
(`src/inaturalist_downloader.py`): the extension resolver, the retrying
fetcher, the output-numbering scan, the progress accounting and the batch
download loop, together with theorems settling the specification claims.

Strings are modelled as Lean `String` (a wrapper around `List Char`), with
Python's string operations re-implemented over the character list.  Machine
integers are `Nat` (Python ints are arbitrary precision).  Wall-clock
durations are `Rat` (the Python floats in the claims take exact values).
Network I/O is modelled by an environment function giving, for each attempt
number, the event that `requests.get` produces on that attempt.
-/

namespace INat

/-! ### Python string primitives -/

/-- Python `str.lower` restricted to the ASCII range (the inputs of interest
are ASCII content types and URLs). -/
def strLower (s : String) : String := ⟨s.data.map Char.toLower⟩

/-- Characters stripped by Python `str.strip()`. -/
def pyIsSpace (c : Char) : Bool :=
  c = ' ' || c = '\t' || c = '\n' || c = '\r' || c = '\x0b' || c = '\x0c'

/-- Python `str.strip()`: drop leading and trailing whitespace. -/
def strStrip (s : String) : String :=
  ⟨((s.data.dropWhile pyIsSpace).reverse.dropWhile pyIsSpace).reverse⟩

/-- Python `s.split(';')[0]`: the segment before the first semicolon. -/
def strBeforeSemicolon (s : String) : String :=
  ⟨s.data.takeWhile (fun c => c ≠ ';')⟩

/-- Does the character list `l` start with `p`? -/
def startsWithL : List Char → List Char → Bool
  | _, [] => true
  | [], _ :: _ => false
  | a :: as, b :: bs => a = b && startsWithL as bs

/-- Does `p` occur as a contiguous run inside `l`?  (Python `p in l`.) -/
def containsL (l p : List Char) : Bool :=
  match l with
  | [] => startsWithL [] p
  | _ :: rest => startsWithL l p || containsL rest p

/-- Python `sub in s` on strings. -/
def strContains (s sub : String) : Bool := containsL s.data sub.data

/-! ### Decimal rendering of naturals (Python `str(int)` / f-string) -/

/-- One decimal digit character. -/
def digitChar (d : Nat) : Char := Char.ofNat (48 + d)

/-- Fuel-indexed decimal digits of `n`, most significant first. -/
def natToDigits : Nat → Nat → List Char
  | 0, _ => []
  | fuel + 1, n =>
    if n < 10 then [digitChar n] else natToDigits fuel (n / 10) ++ [digitChar (n % 10)]

/-- Decimal digit list of `n` (Python `str(n)` for a nonnegative int). -/
def natReprL (n : Nat) : List Char := natToDigits (n + 1) n

/-- Decimal string of `n`. -/
def natStr (n : Nat) : String := ⟨natReprL n⟩

/-- Python `int` on a decimal-digit string (arbitrary precision). -/
def digitsToNat (ds : List Char) : Nat :=
  ds.foldl (fun a c => a * 10 + (c.toNat - 48)) 0

/-! ### ExtensionResolver — `get_file_extension` (lines 21–48) -/

/-- The fixed content-type table of `get_file_extension`. -/
def content_type_map : List (String × String) :=
  [("image/jpeg", ".jpg"), ("image/jpg", ".jpg"), ("image/png", ".png"),
   ("image/gif", ".gif"), ("image/webp", ".webp"), ("image/bmp", ".bmp"),
   ("image/tiff", ".tiff"), ("image/svg+xml", ".svg")]

/-- The URL-suffix candidates tried in order by `get_file_extension`. -/
def url_ext_candidates : List String :=
  [".jpg", ".jpeg", ".png", ".gif", ".webp", ".bmp", ".tiff", ".svg"]

/-- The `for ext in [...]` fallback loop of `get_file_extension`: first
candidate occurring in the lower-cased URL wins, `.jpeg` renamed to `.jpg`. -/
def find_url_ext : List String → String → Option String
  | [], _ => none
  | e :: rest, url =>
    if strContains url e then some (if e = ".jpeg" then ".jpg" else e)
    else find_url_ext rest url

/-- Embedding of `get_file_extension(content_type, url)` (lines 21–48). -/
def get_file_extension (content_type url : String) : String :=
  match (if content_type ≠ "" then
          List.lookup (strLower (strStrip (strBeforeSemicolon content_type))) content_type_map
         else none) with
  | some ext => ext
  | none =>
    match find_url_ext url_ext_candidates (strLower url) with
    | some ext => ext
    | none => ".jpg"

/-! ### Spec-worded resolver, for the refinement claim C4 -/

/-- The spec's fixed table, written as the spec states it (section 4.2, step 1). -/
def spec_table (t : String) : Option String :=
  if t = "image/jpeg" then some ".jpg"
  else if t = "image/jpg" then some ".jpg"
  else if t = "image/png" then some ".png"
  else if t = "image/gif" then some ".gif"
  else if t = "image/webp" then some ".webp"
  else if t = "image/bmp" then some ".bmp"
  else if t = "image/tiff" then some ".tiff"
  else if t = "image/svg+xml" then some ".svg"
  else none

/-- The spec's URL fallback (section 4.2, step 2 and 3): test the suffixes in
the fixed priority order as substrings of the lower-cased identifier,
normalising `.jpeg` to `.jpg`, defaulting to `.jpg`. -/
def spec_url_fallback (url : String) : String :=
  let u := strLower url
  if strContains u ".jpg" then ".jpg"
  else if strContains u ".jpeg" then ".jpg"
  else if strContains u ".png" then ".png"
  else if strContains u ".gif" then ".gif"
  else if strContains u ".webp" then ".webp"
  else if strContains u ".bmp" then ".bmp"
  else if strContains u ".tiff" then ".tiff"
  else if strContains u ".svg" then ".svg"
  else ".jpg"

/-- The three-stage resolution algorithm exactly as the spec words it
(section 4.2): on a non-empty declared content type, strip the parameter
suffix after the semicolon, trim, lower-case and look up in the fixed table,
returning the mapped value on a hit; otherwise or on a miss fall back to the
URL-suffix scan; default `.jpg`. -/
def resolve_spec (declaredContentType sourceId : String) : String :=
  if declaredContentType ≠ "" then
    match spec_table (strLower (strStrip (strBeforeSemicolon declaredContentType))) with
    | some ext => ext
    | none => spec_url_fallback sourceId
  else spec_url_fallback sourceId

/-! ### NumberingScheme — the `re.search(r'image_(\d+)\.\w+', img)` scan
(lines 209–217) -/

/-- ASCII decimal digit (the `\d` class on the filenames of interest). -/
def isDigitC (c : Char) : Bool := '0' ≤ c && c ≤ '9'

/-- ASCII word character (the `\w` class on the filenames of interest). -/
def isWordC (c : Char) : Bool := c.isAlpha || isDigitC c || c = '_'

/-- The `\.\w+` tail of the pattern: does the list start with a dot followed
by at least one word character? -/
def dotWordAfter : List Char → Bool
  | x :: c :: _ => x = '.' && isWordC c
  | _ => false

/-- A match of `image_(\d+)\.\w+` anchored at the head of `l`: the literal
`image_`, a maximal nonempty digit run (the greedy capture group), a dot and
at least one word character.  Returns the captured number. -/
def matchAt (l : List Char) : Option Nat :=
  if startsWithL l ("image_".data) then
    let ds := (l.drop 6).takeWhile isDigitC
    if ds ≠ [] ∧ dotWordAfter ((l.drop 6).drop ds.length) = true then
      some (digitsToNat ds)
    else none
  else none

/-- `re.search(r'image_(\d+)\.\w+', ·)`: leftmost match anywhere in the
name, returning the captured number. -/
def re_search_image : List Char → Option Nat
  | [] => none
  | c :: rest =>
    match matchAt (c :: rest) with
    | some n => some n
    | none => re_search_image rest

/-- The scan loop of `download_images` (lines 210–216): running maximum of
the numbers captured from matching names, starting at 0. -/
def scan_max_num (existing_images : List String) : Nat :=
  existing_images.foldl
    (fun max_num img =>
      match re_search_image img.data with
      | some num => if num > max_num then num else max_num
      | none => max_num) 0

/-- `starting_num = max_num + 1` (line 217). -/
def starting_num (existing_images : List String) : Nat :=
  scan_max_num existing_images + 1

/-- The numbers captured from the names that match. -/
def matched_nums (existing_images : List String) : List Nat :=
  existing_images.filterMap (fun img => re_search_image img.data)

/-! ### RetryingFetcher — `download_with_retry` (lines 60–82)

The network is modelled by an environment `env : Nat → HttpEvent` giving the
event produced by `requests.get` on each 0-based attempt. -/

/-- `REQUEST_TIMEOUT = 30` (line 12). -/
def REQUEST_TIMEOUT : Nat := 30

/-- `MAX_RETRIES = 3` (line 13). -/
def MAX_RETRIES : Nat := 3

/-- `RETRY_DELAY = 2` (line 14). -/
def RETRY_DELAY : Nat := 2

/-- What one `requests.get` call does: raise `Timeout`, raise another
`RequestException` (connection/DNS error), or return a response with a
status code, a byte payload and a declared content type. -/
inductive HttpEvent where
  | timeout : HttpEvent
  | transport (msg : String) : HttpEvent
  | response (status : Nat) (body : List Nat) (contentType : String) : HttpEvent
deriving DecidableEq

/-- How `download_with_retry` terminates: return the response (line 68),
re-raise the `HTTPError` of a status `< 500` (line 74), or raise
`RequestException` after exhausting the attempts (line 82). -/
inductive FetchOutcome where
  | ok (status : Nat) (body : List Nat) (contentType : String) : FetchOutcome
  | raisedClient (status : Nat) : FetchOutcome
  | raisedExhausted (message : String) : FetchOutcome
deriving DecidableEq

/-- Result of a `download_with_retry` call together with the observable
attempt count (number of `requests.get` calls made) and the list of backoff
sleep durations executed (line 80). -/
structure FetchTrace where
  outcome : FetchOutcome
  attempts : Nat
  sleeps : List Nat
deriving DecidableEq

/-- Message for a timeout, `f"Timeout after {timeout}s"` (line 70). -/
def timeout_message (timeout : Nat) : String := "Timeout after " ++ natStr timeout ++ "s"

/-- Message for a retryable server error, `f"HTTP {status}"` (line 75). -/
def http_message (status : Nat) : String := "HTTP " ++ natStr status

/-- Message of the final `RequestException` (line 82); `last_exception`
starts as Python `None`. -/
def exhausted_message (max_retries : Nat) (last : Option String) : String :=
  "Failed after " ++ natStr max_retries ++ " attempts: " ++
    (match last with | some s => s | none => "None")

/-- The `for attempt in range(max_retries)` loop of `download_with_retry`,
with `fuel` the number of remaining iterations and `attempt` the current
0-based index.  `raise_for_status` raises exactly when `400 ≤ status < 600`;
a status `< 500` is re-raised (fatal), otherwise the failure is recorded and
the loop retries after sleeping `RETRY_DELAY * (attempt + 1)` unless this was
the last iteration. -/
def retryAux (env : Nat → HttpEvent) (timeout max_retries : Nat) :
    Nat → Nat → Option String → List Nat → FetchTrace
  | 0, attempt, last, sleeps =>
    ⟨.raisedExhausted (exhausted_message max_retries last), attempt, sleeps⟩
  | fuel + 1, attempt, _last, sleeps =>
    match env attempt with
    | .response status body contentType =>
      if 400 ≤ status ∧ status < 600 then
        if status < 500 then ⟨.raisedClient status, attempt + 1, sleeps⟩
        else
          retryAux env timeout max_retries fuel (attempt + 1) (some (http_message status))
            (if attempt < max_retries - 1 then sleeps ++ [RETRY_DELAY * (attempt + 1)] else sleeps)
      else ⟨.ok status body contentType, attempt + 1, sleeps⟩
    | .timeout =>
      retryAux env timeout max_retries fuel (attempt + 1) (some (timeout_message timeout))
        (if attempt < max_retries - 1 then sleeps ++ [RETRY_DELAY * (attempt + 1)] else sleeps)
    | .transport msg =>
      retryAux env timeout max_retries fuel (attempt + 1) (some msg)
        (if attempt < max_retries - 1 then sleeps ++ [RETRY_DELAY * (attempt + 1)] else sleeps)

/-- Embedding of `download_with_retry(url, timeout, max_retries)`
(lines 60–82): the URL only reaches the environment, so the environment
function stands for the pair (URL, network behaviour). -/
def download_with_retry (env : Nat → HttpEvent) (timeout : Nat := REQUEST_TIMEOUT)
    (max_retries : Nat := MAX_RETRIES) : FetchTrace :=
  retryAux env timeout max_retries max_retries 0 none []

/-! ### ProgressModel — the accounting in `download` (lines 263–298) -/

/-- `mean_speed = (total_size * 8) / (total_time * 1_000_000) if total_time > 0
else 0` (line 268), in Mbit/s. -/
def mean_speed (total_size : Nat) (total_time : Rat) : Rat :=
  if total_time > 0 then ((total_size : Rat) * 8) / (total_time * 1000000) else 0

/-- `remaining_time = (elapsed_total_time / progress) * (len(valid_urls) -
progress)` (lines 296–298), guarded in the loop by `progress > 0`. -/
def remaining_time (elapsed_total_time : Rat) (progress total : Nat) : Rat :=
  (elapsed_total_time / (progress : Rat)) * ((total : Rat) - (progress : Rat))

/-! ### BatchRunner — the `download` worker (lines 232–314) -/

/-- One valid input item: its URL, the network behaviour its fetch meets
(one event per attempt), and the wall-clock duration the fetch took. -/
structure Item where
  url : String
  events : Nat → HttpEvent
  elapsed : Rat

/-- A file written to the destination directory: the output number, the
resolved extension and the payload.  The on-disk name is `image_name`. -/
structure FileRec where
  num : Nat
  ext : String
  data : List Nat
deriving DecidableEq

/-- `f"image_{img_num}{extension}"` (line 275). -/
def image_name (num : Nat) (ext : String) : String := "image_" ++ natStr num ++ ext

/-- The on-disk filename of a written file. -/
def FileRec.name (f : FileRec) : String := image_name f.num f.ext

/-- The mutable state of one batch run (lines 235–240), plus the contents of
the destination directory as the run writes it. -/
structure BatchState where
  total_size : Nat
  total_time : Rat
  successful : Nat
  failed : Nat
  failed_urls : List (String × String)
  files : List FileRec
deriving DecidableEq

/-- The state a run starts from (with an empty destination directory). -/
def initState : BatchState := ⟨0, 0, 0, 0, [], []⟩

/-- Message of the `ValueError` for an undersized payload (line 261). -/
def too_small_message : String := "Downloaded content too small, likely an error page"

/-- `str(e)` of the re-raised `requests` `HTTPError` for a 4xx status; the
exact text comes from the `requests` library, abstracted here as carrying
the status code. -/
def client_error_message (status : Nat) : String :=
  natStr status ++ " Client Error: raised for status"

/-- The `except Exception` arm of the per-item `try` (lines 281–285):
increment `failed` and append `(url, message)` to `failed_urls`. -/
def record_failure (st : BatchState) (url message : String) : BatchState :=
  { st with failed := st.failed + 1, failed_urls := st.failed_urls ++ [(url, message)] }

/-- The per-item `try` body (lines 250–285): fetch with retry; on a returned
response, raise `ValueError` if the payload is under 100 bytes, else add the
payload size and elapsed time to the running totals, resolve the extension
from the declared content type and the URL, write
`image_{img_num}{extension}` and increment `successful`.  Every raised
exception lands in the `except` arm and is recorded locally. -/
def process_item (item : Item) (img_num : Nat) (st : BatchState) : BatchState :=
  match (download_with_retry item.events REQUEST_TIMEOUT MAX_RETRIES).outcome with
  | .ok _ body contentType =>
    if body.length < 100 then record_failure st item.url too_small_message
    else
      { st with
        total_size := st.total_size + body.length,
        total_time := st.total_time + item.elapsed,
        successful := st.successful + 1,
        files := st.files ++ [⟨img_num, get_file_extension contentType item.url, body⟩] }
  | .raisedClient status => record_failure st item.url (client_error_message status)
  | .raisedExhausted message => record_failure st item.url message

/-- The `for idx, (original_idx, url) in enumerate(valid_urls)` loop
(lines 242–303): before each item the cancellation flag is polled
(`cancel idx` is the value read at the check preceding item `idx`); on a set
flag the loop breaks.  `img_num = starting_num + idx` (line 248).  Returns
the final state and the flag value the summary code reads after the loop
(line 306); on a break that value is the `true` just read, on normal
exhaustion it is one further read. -/
def download_loop (cancel : Nat → Bool) (start_num : Nat) :
    List Item → Nat → BatchState → BatchState × Bool
  | [], idx, st => (st, cancel idx)
  | item :: rest, idx, st =>
    if cancel idx then (st, true)
    else download_loop cancel start_num rest (idx + 1) (process_item item (start_num + idx) st)

/-- The summary dialog content (lines 305–313): counts always; the remaining
count only on the cancelled branch; the first recorded failure only on the
completed branch and only when `failed > 0`. -/
structure Summary where
  successful : Nat
  failed : Nat
  cancelled : Bool
  firstFailure : Option (String × String)
  remaining : Option Nat
deriving DecidableEq

/-- Build the summary from the final state (lines 305–313). -/
def make_summary (cancelled : Bool) (st : BatchState) (total : Nat) : Summary :=
  if cancelled then
    ⟨st.successful, st.failed, true, none, some (total - st.successful - st.failed)⟩
  else
    ⟨st.successful, st.failed, false,
      (if st.failed > 0 then st.failed_urls.head? else none), none⟩

/-- One whole worker run (lines 232–314): loop over the valid items from the
initial state, then build the summary. -/
def download_run (cancel : Nat → Bool) (items : List Item) (start_num : Nat) :
    BatchState × Summary :=
  let r := download_loop cancel start_num items 0 initState
  (r.1, make_summary r.2 r.1 items.length)

/-! ### Derived descriptions used to state the invariants -/

/-- The file (if any) that processing `item` under output number `num`
writes: only a returned response of at least 100 bytes produces one. -/
def item_file (item : Item) (num : Nat) : Option FileRec :=
  match (download_with_retry item.events REQUEST_TIMEOUT MAX_RETRIES).outcome with
  | .ok _ body contentType =>
    if body.length < 100 then none
    else some ⟨num, get_file_extension contentType item.url, body⟩
  | .raisedClient _ => none
  | .raisedExhausted _ => none

/-- The files an uncancelled run writes, item `idx` using number
`start_num + idx`. -/
def expected_files (start_num : Nat) : List Item → Nat → List FileRec
  | [], _ => []
  | item :: rest, idx =>
    (item_file item (start_num + idx)).toList ++ expected_files start_num rest (idx + 1)

/-! ### Concrete demonstration inputs -/

/-- A plausible 100-byte payload. -/
def demoBody : List Nat := List.replicate 100 7

/-- A network that always answers 200 with a 100-byte PNG. -/
def demoEnvOK : Nat → HttpEvent := fun _ => .response 200 demoBody "image/png"

/-- An item whose fetch succeeds. -/
def demoItemOK : Item := ⟨"http://host/a.png", demoEnvOK, 1⟩

/-- A network that always answers 404. -/
def demoEnv404 : Nat → HttpEvent := fun _ => .response 404 [] ""

/-- An item whose fetch hits a client error. -/
def demoItem404 : Item := ⟨"http://host/b", demoEnv404, 0⟩

/-- A network that always answers 200 with a 3-byte payload. -/
def demoEnvSmall : Nat → HttpEvent := fun _ => .response 200 [1, 2, 3] ""

/-- An item whose fetch succeeds but is under the 100-byte threshold. -/
def demoItemSmall : Item := ⟨"http://host/c", demoEnvSmall, 0⟩

/-- A network that times out twice and then answers 200 with 100 bytes. -/
def demoEnvTT : Nat → HttpEvent :=
  fun i => if i ≤ 1 then .timeout else .response 200 demoBody "image/jpeg"

/-- A network that always answers 500. -/
def demoEnv500 : Nat → HttpEvent := fun _ => .response 500 [] ""

/-! ### Lemmas: decimal representation -/

theorem digitChar_toNat (d : Nat) (h : d < 10) : (digitChar d).toNat = 48 + d := by
  interval_cases d <;> decide

theorem isDigitC_digitChar (d : Nat) (h : d < 10) : isDigitC (digitChar d) = true := by
  interval_cases d <;> decide

theorem digitsToNat_append_one (l : List Char) (c : Char) :
    digitsToNat (l ++ [c]) = digitsToNat l * 10 + (c.toNat - 48) := by
  unfold digitsToNat
  rw [List.foldl_append]
  rfl

theorem natToDigits_inv : ∀ fuel n, n < fuel → digitsToNat (natToDigits fuel n) = n := by
  intro fuel
  induction fuel with
  | zero => intro n h; omega
  | succ f ih =>
    intro n h
    unfold natToDigits
    by_cases h10 : n < 10
    · rw [if_pos h10]
      show digitsToNat ([] ++ [digitChar n]) = n
      rw [digitsToNat_append_one, digitChar_toNat n h10]
      show 0 * 10 + (48 + n - 48) = n
      omega
    · rw [if_neg h10, digitsToNat_append_one, ih (n / 10) (by omega),
        digitChar_toNat (n % 10) (Nat.mod_lt n (by norm_num))]
      omega

theorem digitsToNat_natReprL (n : Nat) : digitsToNat (natReprL n) = n :=
  natToDigits_inv (n + 1) n (by omega)

theorem natReprL_inj {a b : Nat} (h : natReprL a = natReprL b) : a = b := by
  have ha := digitsToNat_natReprL a
  rw [h, digitsToNat_natReprL] at ha
  omega

theorem natToDigits_digits :
    ∀ fuel n, ∀ c ∈ natToDigits fuel n, isDigitC c = true := by
  intro fuel
  induction fuel with
  | zero => intro n c hc; simp [natToDigits] at hc
  | succ f ih =>
    intro n c hc
    unfold natToDigits at hc
    by_cases h10 : n < 10
    · rw [if_pos h10] at hc
      simp at hc
      subst hc
      exact isDigitC_digitChar n h10
    · rw [if_neg h10] at hc
      rcases List.mem_append.mp hc with hm | hm
      · exact ih (n / 10) c hm
      · simp at hm
        subst hm
        exact isDigitC_digitChar (n % 10) (Nat.mod_lt n (by norm_num))

theorem natReprL_digits (n : Nat) : ∀ c ∈ natReprL n, isDigitC c = true :=
  natToDigits_digits (n + 1) n

/-! ### Lemmas: strings and filename injectivity -/

theorem str_data_append (a b : String) : (a ++ b).data = a.data ++ b.data := by
  cases a; cases b; rfl

theorem takeWhile_all_append (xs : List Char) (x : Char) (l : List Char) (p : Char → Bool)
    (h : ∀ c ∈ xs, p c = true) (hx : p x = false) : (xs ++ x :: l).takeWhile p = xs := by
  induction xs with
  | nil => simp [List.takeWhile, hx]
  | cons a as ih =>
    simp only [List.cons_append, List.takeWhile]
    rw [h a (by simp)]
    show a :: List.takeWhile p (as ++ x :: l) = a :: as
    rw [ih (fun c hc => h c (by simp [hc]))]

theorem image_name_inj (n1 n2 : Nat) (e1 e2 : String) (h1 : ∃ t, e1.data = '.' :: t)
    (h2 : ∃ t, e2.data = '.' :: t) (h : image_name n1 e1 = image_name n2 e2) : n1 = n2 := by
  obtain ⟨t1, ht1⟩ := h1
  obtain ⟨t2, ht2⟩ := h2
  have hd := congrArg String.data h
  unfold image_name natStr at hd
  rw [str_data_append, str_data_append, str_data_append, str_data_append] at hd
  rw [List.append_assoc, List.append_assoc] at hd
  have hc := List.append_cancel_left hd
  show n1 = n2
  refine natReprL_inj ?_
  have e1eq : (natReprL n1 ++ e1.data).takeWhile isDigitC = natReprL n1 := by
    rw [ht1]
    exact takeWhile_all_append (natReprL n1) '.' t1 isDigitC (natReprL_digits n1) (by decide)
  have e2eq : (natReprL n2 ++ e2.data).takeWhile isDigitC = natReprL n2 := by
    rw [ht2]
    exact takeWhile_all_append (natReprL n2) '.' t2 isDigitC (natReprL_digits n2) (by decide)
  rw [← e1eq, ← e2eq, hc]

/-! ### Lemmas: extension resolution -/

theorem lookup_cons (k a v : String) (es : List (String × String)) :
    List.lookup k ((a, v) :: es) = if k = a then some v else List.lookup k es := by
  by_cases h : k = a
  · simp [List.lookup, h]
  · have hb : (k == a) = false := beq_eq_false_iff_ne.mpr h
    simp [List.lookup, hb, h]

theorem lookup_eq_spec_table (k : String) :
    List.lookup k content_type_map = spec_table k := by
  simp only [content_type_map, spec_table, lookup_cons, List.lookup_nil]

theorem lookup_dot (k v : String) (h : List.lookup k content_type_map = some v) :
    ∃ t, v.data = '.' :: t := by
  rw [lookup_eq_spec_table] at h
  unfold spec_table at h
  split_ifs at h <;> (injection h with h; subst h; exact ⟨_, rfl⟩)

theorem find_url_ext_vals :
    ∀ (cands : List String) (url e : String), find_url_ext cands url = some e →
      e = ".jpg" ∨ e ∈ cands := by
  intro cands
  induction cands with
  | nil => intro url e h; simp [find_url_ext] at h
  | cons c cs ih =>
    intro url e h
    unfold find_url_ext at h
    by_cases hc : strContains url c = true
    · rw [if_pos hc] at h
      by_cases hj : c = ".jpeg"
      · rw [if_pos hj] at h
        exact Or.inl (Option.some.inj h).symm
      · rw [if_neg hj] at h
        cases Option.some.inj h
        exact Or.inr (List.mem_cons_self _ _)
    · rw [if_neg hc] at h
      rcases ih url e h with h1 | h1
      · exact Or.inl h1
      · exact Or.inr (List.mem_cons_of_mem c h1)

theorem get_file_extension_dot (ct url : String) :
    ∃ t, (get_file_extension ct url).data = '.' :: t := by
  unfold get_file_extension
  by_cases hct : ct ≠ ""
  · rw [if_pos hct]
    cases hl : List.lookup (strLower (strStrip (strBeforeSemicolon ct))) content_type_map with
    | some e => exact lookup_dot _ e hl
    | none =>
      cases hf : find_url_ext url_ext_candidates (strLower url) with
      | some e =>
        rcases find_url_ext_vals url_ext_candidates (strLower url) e hf with h | h
        · subst h; exact ⟨_, rfl⟩
        · fin_cases h <;> exact ⟨_, rfl⟩
      | none => exact ⟨_, rfl⟩
  · rw [if_neg hct]
    cases hf : find_url_ext url_ext_candidates (strLower url) with
    | some e =>
      rcases find_url_ext_vals url_ext_candidates (strLower url) e hf with h | h
      · subst h; exact ⟨_, rfl⟩
      · fin_cases h <;> exact ⟨_, rfl⟩
    | none => exact ⟨_, rfl⟩

theorem fallback_eq (url : String) :
    (match find_url_ext url_ext_candidates (strLower url) with
      | some e => e
      | none => ".jpg") = spec_url_fallback url := by
  simp only [spec_url_fallback, url_ext_candidates, find_url_ext]
  split_ifs <;> first | rfl | simp_all

/-! ### Lemmas: the numbering-scan pattern match -/

theorem startsWithL_decomp :
    ∀ (p l : List Char), startsWithL l p = true → l = p ++ l.drop p.length := by
  intro p
  induction p with
  | nil => intro l _; simp
  | cons b bs ih =>
    intro l h
    cases l with
    | nil => simp [startsWithL] at h
    | cons a as =>
      unfold startsWithL at h
      rcases Bool.and_eq_true_iff.mp h with ⟨hab, hrest⟩
      have hab' : a = b := by simpa using hab
      subst hab'
      show a :: as = a :: (bs ++ (a :: as).drop (bs.length + 1))
      rw [List.drop_succ_cons]
      rw [← ih as hrest]

theorem dropWhile_via_drop (p : Char → Bool) (l : List Char) :
    l.drop (l.takeWhile p).length = l.dropWhile p := by
  nth_rewrite 2 [← List.takeWhile_append_dropWhile p l]
  exact List.drop_left _ _

theorem matchAt_sound (l : List Char) (n : Nat) (h : matchAt l = some n) :
    ∃ ds c rest, l = "image_".data ++ ds ++ '.' :: c :: rest ∧ ds ≠ [] ∧
      (∀ d ∈ ds, isDigitC d = true) ∧ isWordC c = true ∧ n = digitsToNat ds := by
  unfold matchAt at h
  by_cases hs : startsWithL l ("image_".data) = true
  · rw [if_pos hs] at h
    by_cases hcond : (l.drop 6).takeWhile isDigitC ≠ [] ∧
        dotWordAfter ((l.drop 6).drop ((l.drop 6).takeWhile isDigitC).length) = true
    · rw [if_pos hcond] at h
      obtain ⟨hne, hdw⟩ := hcond
      rw [dropWhile_via_drop] at hdw
      have hdec : ∃ c rest, (l.drop 6).dropWhile isDigitC = '.' :: c :: rest ∧
          isWordC c = true := by
        rcases hx : (l.drop 6).dropWhile isDigitC with _ | ⟨x, _ | ⟨c, t⟩⟩
        · rw [hx] at hdw; simp [dotWordAfter] at hdw
        · rw [hx] at hdw; simp [dotWordAfter] at hdw
        · rw [hx] at hdw
          simp only [dotWordAfter, Bool.and_eq_true, decide_eq_true_eq] at hdw
          obtain ⟨hxd, hw⟩ := hdw
          subst hxd
          exact ⟨c, t, rfl, hw⟩
      obtain ⟨c, rest, hdec, hw⟩ := hdec
      refine ⟨(l.drop 6).takeWhile isDigitC, c, rest, ?_, hne, ?_, hw, ?_⟩
      · have h1 : l = "image_".data ++ l.drop 6 := by
          have := startsWithL_decomp ("image_".data) l hs
          simpa using this
        have h2 : l.drop 6 =
            (l.drop 6).takeWhile isDigitC ++ '.' :: c :: rest := by
          rw [← hdec]
          exact (List.takeWhile_append_dropWhile isDigitC (l.drop 6)).symm
        rw [List.append_assoc, ← h2, ← h1]
      · intro d hd
        exact List.mem_takeWhile_imp hd
      · exact (Option.some.inj h).symm
    · rw [if_neg hcond] at h
      exact Option.noConfusion h
  · rw [if_neg hs] at h
    exact Option.noConfusion h

theorem re_search_sound :
    ∀ (l : List Char) (n : Nat), re_search_image l = some n →
      ∃ pre suff, l = pre ++ suff ∧ matchAt suff = some n := by
  intro l
  induction l with
  | nil => intro n h; simp [re_search_image] at h
  | cons c cs ih =>
    intro n h
    unfold re_search_image at h
    cases hm : matchAt (c :: cs) with
    | some m =>
      rw [hm] at h
      exact ⟨[], c :: cs, rfl, by rw [hm, Option.some.inj h]⟩
    | none =>
      rw [hm] at h
      obtain ⟨pre, suff, heq, hma⟩ := ih n h
      exact ⟨c :: pre, suff, by rw [List.cons_append, ← heq], hma⟩

/-! ### Lemmas: running maximum -/

theorem nat_max_right (a x : Nat) (h : a ≤ x) : Nat.max a x = x :=
  Nat.le_antisymm (Nat.max_le.mpr ⟨h, Nat.le_refl x⟩) (Nat.le_max_right a x)

theorem nat_max_left (a x : Nat) (h : x ≤ a) : Nat.max a x = a :=
  Nat.le_antisymm (Nat.max_le.mpr ⟨Nat.le_refl a, h⟩) (Nat.le_max_left a x)

theorem scan_step_max (a n : Nat) : (if n > a then n else a) = Nat.max a n := by
  split_ifs with h
  · exact (nat_max_right a n (Nat.le_of_lt h)).symm
  · exact (nat_max_left a n (by omega)).symm

theorem scan_eq_fold (names : List String) :
    ∀ a, names.foldl
        (fun max_num img =>
          match re_search_image img.data with
          | some num => if num > max_num then num else max_num
          | none => max_num) a
      = (matched_nums names).foldl Nat.max a := by
  induction names with
  | nil => intro a; rfl
  | cons x xs ih =>
    intro a
    rcases Option.eq_none_or_eq_some (re_search_image x.data) with hx | ⟨m, hx⟩
    · simp only [List.foldl_cons, hx]
      have hm : matched_nums (x :: xs) = matched_nums xs := by
        simp [matched_nums, List.filterMap_cons, hx]
      rw [hm]
      exact ih a
    · simp only [List.foldl_cons, hx]
      have hm : matched_nums (x :: xs) = m :: matched_nums xs := by
        simp [matched_nums, List.filterMap_cons, hx]
      rw [hm, List.foldl_cons]
      show List.foldl
          (fun max_num img =>
            match re_search_image img.data with
            | some num => if num > max_num then num else max_num
            | none => max_num)
          (if m > a then m else a) xs
        = List.foldl Nat.max (Nat.max a m) (matched_nums xs)
      rw [scan_step_max]
      exact ih (Nat.max a m)

theorem foldl_max_base : ∀ (l : List Nat) (a : Nat), a ≤ l.foldl Nat.max a := by
  intro l
  induction l with
  | nil => intro a; exact Nat.le_refl a
  | cons x xs ih =>
    intro a
    exact Nat.le_trans (Nat.le_max_left a x) (ih (Nat.max a x))

theorem foldl_max_le : ∀ (l : List Nat) (a x : Nat), x ∈ l → x ≤ l.foldl Nat.max a := by
  intro l
  induction l with
  | nil => intro a x hx; simp at hx
  | cons y ys ih =>
    intro a x hx
    rcases List.mem_cons.mp hx with h | h
    · subst h
      exact Nat.le_trans (Nat.le_max_right a x) (foldl_max_base ys (Nat.max a x))
    · exact ih (Nat.max a y) x h

theorem foldl_max_mem :
    ∀ (l : List Nat) (a : Nat), l.foldl Nat.max a = a ∨ l.foldl Nat.max a ∈ l := by
  intro l
  induction l with
  | nil => intro a; exact Or.inl rfl
  | cons x xs ih =>
    intro a
    rcases ih (Nat.max a x) with h | h
    · rcases Nat.le_total a x with hax | hax
      · right
        rw [List.foldl_cons, h, nat_max_right a x hax]
        exact List.mem_cons_self x xs
      · left
        rw [List.foldl_cons, h, nat_max_left a x hax]
    · right
      exact List.mem_cons_of_mem x h

/-! ### Lemmas: per-item processing -/

theorem process_item_ok_big (item : Item) (num : Nat) (st : BatchState)
    (status : Nat) (body : List Nat) (ct : String)
    (h : (download_with_retry item.events REQUEST_TIMEOUT MAX_RETRIES).outcome
        = .ok status body ct)
    (hlen : ¬body.length < 100) :
    process_item item num st =
      { st with
        total_size := st.total_size + body.length,
        total_time := st.total_time + item.elapsed,
        successful := st.successful + 1,
        files := st.files ++ [⟨num, get_file_extension ct item.url, body⟩] } := by
  unfold process_item
  simp only [h]
  rw [if_neg hlen]

theorem process_item_ok_small (item : Item) (num : Nat) (st : BatchState)
    (status : Nat) (body : List Nat) (ct : String)
    (h : (download_with_retry item.events REQUEST_TIMEOUT MAX_RETRIES).outcome
        = .ok status body ct)
    (hlen : body.length < 100) :
    process_item item num st = record_failure st item.url too_small_message := by
  unfold process_item
  simp only [h]
  rw [if_pos hlen]

theorem process_item_client (item : Item) (num : Nat) (st : BatchState) (status : Nat)
    (h : (download_with_retry item.events REQUEST_TIMEOUT MAX_RETRIES).outcome
        = .raisedClient status) :
    process_item item num st = record_failure st item.url (client_error_message status) := by
  unfold process_item
  simp only [h]

theorem process_item_exhausted (item : Item) (num : Nat) (st : BatchState) (message : String)
    (h : (download_with_retry item.events REQUEST_TIMEOUT MAX_RETRIES).outcome
        = .raisedExhausted message) :
    process_item item num st = record_failure st item.url message := by
  unfold process_item
  simp only [h]

theorem process_item_cases (item : Item) (num : Nat) (st : BatchState) :
    (∃ msg, process_item item num st = record_failure st item.url msg) ∨
    (∃ status body ct,
      (download_with_retry item.events REQUEST_TIMEOUT MAX_RETRIES).outcome
          = .ok status body ct ∧
      100 ≤ body.length ∧
      process_item item num st =
        { st with
          total_size := st.total_size + body.length,
          total_time := st.total_time + item.elapsed,
          successful := st.successful + 1,
          files := st.files ++ [⟨num, get_file_extension ct item.url, body⟩] }) := by
  rcases h : (download_with_retry item.events REQUEST_TIMEOUT MAX_RETRIES).outcome
    with ⟨status, body, ct⟩ | status | message
  · by_cases hlen : body.length < 100
    · exact Or.inl ⟨too_small_message, process_item_ok_small item num st status body ct h hlen⟩
    · exact Or.inr ⟨status, body, ct, rfl, by omega,
        process_item_ok_big item num st status body ct h hlen⟩
  · exact Or.inl ⟨client_error_message status, process_item_client item num st status h⟩
  · exact Or.inl ⟨message, process_item_exhausted item num st message h⟩

theorem process_item_counts (item : Item) (num : Nat) (st : BatchState) :
    (process_item item num st).successful + (process_item item num st).failed
      = st.successful + st.failed + 1 := by
  rcases process_item_cases item num st with ⟨msg, hp⟩ | ⟨status, body, ct, _, _, hp⟩
  · rw [hp]
    simp [record_failure]
    omega
  · rw [hp]
    show st.successful + 1 + st.failed = st.successful + st.failed + 1
    omega

theorem process_item_files (item : Item) (num : Nat) (st : BatchState) :
    (process_item item num st).files = st.files ++ (item_file item num).toList := by
  rcases h : (download_with_retry item.events REQUEST_TIMEOUT MAX_RETRIES).outcome
    with ⟨status, body, ct⟩ | status | message
  · by_cases hlen : body.length < 100
    · rw [process_item_ok_small item num st status body ct h hlen]
      unfold item_file
      simp only [h]
      rw [if_pos hlen]
      simp [record_failure]
    · rw [process_item_ok_big item num st status body ct h hlen]
      unfold item_file
      simp only [h]
      rw [if_neg hlen]
      simp
  · rw [process_item_client item num st status h]
    unfold item_file
    simp only [h]
    simp [record_failure]
  · rw [process_item_exhausted item num st message h]
    unfold item_file
    simp only [h]
    simp [record_failure]

theorem process_item_url_count (item : Item) (num : Nat) (st : BatchState)
    (h : st.failed_urls.length = st.failed) :
    (process_item item num st).failed_urls.length = (process_item item num st).failed := by
  rcases process_item_cases item num st with ⟨msg, hp⟩ | ⟨status, body, ct, _, _, hp⟩
  · rw [hp]
    simp [record_failure, h]
  · rw [hp]
    simpa using h

/-! ### Lemmas: the batch loop -/

theorem download_loop_nil (cancel : Nat → Bool) (start_num idx : Nat) (st : BatchState) :
    download_loop cancel start_num [] idx st = (st, cancel idx) := by
  simp only [download_loop]

theorem download_loop_cons (cancel : Nat → Bool) (start_num : Nat) (item : Item)
    (rest : List Item) (idx : Nat) (st : BatchState) :
    download_loop cancel start_num (item :: rest) idx st
      = if cancel idx then (st, true)
        else download_loop cancel start_num rest (idx + 1)
              (process_item item (start_num + idx) st) := by
  simp only [download_loop]

theorem expected_files_cons (start_num : Nat) (item : Item) (rest : List Item) (idx : Nat) :
    expected_files start_num (item :: rest) idx
      = (item_file item (start_num + idx)).toList ++ expected_files start_num rest (idx + 1) := by
  simp only [expected_files]

theorem loop_nocancel_counts (start_num : Nat) :
    ∀ (l : List Item) (idx : Nat) (st : BatchState),
      ((download_loop (fun _ => false) start_num l idx st).1.successful
        + (download_loop (fun _ => false) start_num l idx st).1.failed)
      = st.successful + st.failed + l.length := by
  intro l
  induction l with
  | nil => intro idx st; simp [download_loop_nil]
  | cons item rest ih =>
    intro idx st
    rw [download_loop_cons, if_neg (by simp)]
    rw [ih (idx + 1) (process_item item (start_num + idx) st)]
    rw [process_item_counts]
    simp only [List.length_cons]
    omega

theorem loop_cancel_take (start_num k : Nat) :
    ∀ (l : List Item) (idx : Nat) (st : BatchState), idx ≤ k →
      (download_loop (fun i => decide (k ≤ i)) start_num l idx st).1
        = (download_loop (fun _ => false) start_num (l.take (k - idx)) idx st).1 := by
  intro l
  induction l with
  | nil => intro idx st _; simp [download_loop_nil]
  | cons item rest ih =>
    intro idx st hik
    by_cases hk : k ≤ idx
    · have h0 : k - idx = 0 := by omega
      rw [h0, List.take_zero, download_loop_nil, download_loop_cons,
        if_pos (by simpa using hk)]
    · have htake : k - idx = (k - (idx + 1)) + 1 := by omega
      rw [htake, List.take_succ_cons, download_loop_cons, download_loop_cons,
        if_neg (by simpa using hk), if_neg (by simp)]
      exact ih (idx + 1) (process_item item (start_num + idx) st) (by omega)

theorem loop_cancel_flag (start_num k : Nat) :
    ∀ (l : List Item) (idx : Nat) (st : BatchState), k ≤ idx + l.length →
      (download_loop (fun i => decide (k ≤ i)) start_num l idx st).2 = true := by
  intro l
  induction l with
  | nil =>
    intro idx st h
    simp only [List.length_nil, Nat.add_zero] at h
    simp [download_loop_nil, h]
  | cons item rest ih =>
    intro idx st h
    rw [download_loop_cons]
    by_cases hk : k ≤ idx
    · rw [if_pos (by simpa using hk)]
    · rw [if_neg (by simpa using hk)]
      exact ih (idx + 1) (process_item item (start_num + idx) st)
        (by simp only [List.length_cons] at h; omega)

theorem loop_prefix (cancel : Nat → Bool) (start_num : Nat) :
    ∀ (l : List Item) (idx : Nat) (st : BatchState),
      ∃ m, m ≤ l.length ∧
        (download_loop cancel start_num l idx st).1
          = (download_loop (fun _ => false) start_num (l.take m) idx st).1 := by
  intro l
  induction l with
  | nil => intro idx st; exact ⟨0, Nat.le_refl 0, rfl⟩
  | cons item rest ih =>
    intro idx st
    by_cases hc : cancel idx = true
    · refine ⟨0, by simp, ?_⟩
      rw [List.take_zero, download_loop_nil, download_loop_cons, if_pos hc]
    · obtain ⟨m, hm, heq⟩ := ih (idx + 1) (process_item item (start_num + idx) st)
      refine ⟨m + 1, by simpa using hm, ?_⟩
      rw [List.take_succ_cons, download_loop_cons, download_loop_cons,
        if_neg hc, if_neg (by simp)]
      exact heq

theorem loop_files (start_num : Nat) :
    ∀ (l : List Item) (idx : Nat) (st : BatchState),
      (download_loop (fun _ => false) start_num l idx st).1.files
        = st.files ++ expected_files start_num l idx := by
  intro l
  induction l with
  | nil => intro idx st; simp [download_loop_nil, expected_files]
  | cons item rest ih =>
    intro idx st
    rw [download_loop_cons, if_neg (by simp)]
    rw [ih (idx + 1) (process_item item (start_num + idx) st)]
    rw [process_item_files, expected_files_cons, List.append_assoc]

theorem loop_url_count (cancel : Nat → Bool) (start_num : Nat) :
    ∀ (l : List Item) (idx : Nat) (st : BatchState),
      st.failed_urls.length = st.failed →
      (download_loop cancel start_num l idx st).1.failed_urls.length
        = (download_loop cancel start_num l idx st).1.failed := by
  intro l
  induction l with
  | nil => intro idx st h; rw [download_loop_nil]; exact h
  | cons item rest ih =>
    intro idx st h
    rw [download_loop_cons]
    by_cases hc : cancel idx = true
    · rw [if_pos hc]
      exact h
    · rw [if_neg hc]
      exact ih (idx + 1) (process_item item (start_num + idx) st)
        (process_item_url_count item (start_num + idx) st h)

/-! ### Lemmas: the files an uncancelled run writes -/

theorem item_file_num (item : Item) (num : Nat) (f : FileRec)
    (h : item_file item num = some f) :
    f.num = num ∧ ∃ t, f.ext.data = '.' :: t := by
  unfold item_file at h
  rcases hout : (download_with_retry item.events REQUEST_TIMEOUT MAX_RETRIES).outcome
    with ⟨status, body, ct⟩ | status | message
  · simp only [hout] at h
    by_cases hlen : body.length < 100
    · rw [if_pos hlen] at h
      exact Option.noConfusion h
    · rw [if_neg hlen] at h
      injection h with h
      subst h
      exact ⟨rfl, get_file_extension_dot ct item.url⟩
  · simp only [hout] at h
    exact Option.noConfusion h
  · simp only [hout] at h
    exact Option.noConfusion h

theorem expected_files_mem (start_num : Nat) :
    ∀ (l : List Item) (idx : Nat) (f : FileRec), f ∈ expected_files start_num l idx →
      ∃ j, j < l.length ∧ f.num = start_num + idx + j ∧ ∃ t, f.ext.data = '.' :: t := by
  intro l
  induction l with
  | nil => intro idx f hf; simp [expected_files] at hf
  | cons item rest ih =>
    intro idx f hf
    rw [expected_files_cons] at hf
    rcases List.mem_append.mp hf with hm | hm
    · rcases ho : item_file item (start_num + idx) with _ | fr
      · rw [ho] at hm
        simp [Option.toList] at hm
      · rw [ho] at hm
        simp only [Option.toList_some, List.mem_singleton] at hm
        subst hm
        obtain ⟨hn, ht⟩ := item_file_num item (start_num + idx) f ho
        exact ⟨0, by simp, by omega, ht⟩
    · obtain ⟨j, hj, hn, ht⟩ := ih (idx + 1) f hm
      exact ⟨j + 1, by simp only [List.length_cons]; omega, by omega, ht⟩

theorem expected_files_pairwise (start_num : Nat) :
    ∀ (l : List Item) (idx : Nat),
      (expected_files start_num l idx).Pairwise (fun a b => a.num < b.num) := by
  intro l
  induction l with
  | nil => intro idx; simp [expected_files]
  | cons item rest ih =>
    intro idx
    rw [expected_files_cons, List.pairwise_append]
    refine ⟨?_, ih (idx + 1), ?_⟩
    · rcases ho : item_file item (start_num + idx) with _ | fr <;> simp
    · intro a ha b hb
      rcases ho : item_file item (start_num + idx) with _ | fr
      · rw [ho] at ha
        simp [Option.toList] at ha
      · rw [ho] at ha
        simp only [Option.toList_some, List.mem_singleton] at ha
        subst ha
        obtain ⟨hn, _⟩ := item_file_num item (start_num + idx) a ho
        obtain ⟨j, _, hbn, _⟩ := expected_files_mem start_num rest (idx + 1) b hb
        omega

/-! ### Lemmas: single retry steps -/

theorem retryAux_zero (env : Nat → HttpEvent) (t mr attempt : Nat) (last : Option String)
    (sleeps : List Nat) :
    retryAux env t mr 0 attempt last sleeps
      = ⟨.raisedExhausted (exhausted_message mr last), attempt, sleeps⟩ := by
  simp only [retryAux]

theorem retryAux_timeout (env : Nat → HttpEvent) (t mr fuel attempt : Nat)
    (last : Option String) (sleeps : List Nat) (h : env attempt = .timeout) :
    retryAux env t mr (fuel + 1) attempt last sleeps
      = retryAux env t mr fuel (attempt + 1) (some (timeout_message t))
          (if attempt < mr - 1 then sleeps ++ [RETRY_DELAY * (attempt + 1)] else sleeps) := by
  simp only [retryAux, h]

theorem retryAux_ok (env : Nat → HttpEvent) (t mr fuel attempt : Nat)
    (last : Option String) (sleeps : List Nat) (status : Nat) (body : List Nat) (ct : String)
    (h : env attempt = .response status body ct) (hst : ¬(400 ≤ status ∧ status < 600)) :
    retryAux env t mr (fuel + 1) attempt last sleeps
      = ⟨.ok status body ct, attempt + 1, sleeps⟩ := by
  simp only [retryAux, h]
  rw [if_neg hst]

theorem retryAux_client (env : Nat → HttpEvent) (t mr fuel attempt : Nat)
    (last : Option String) (sleeps : List Nat) (status : Nat) (body : List Nat) (ct : String)
    (h : env attempt = .response status body ct) (hst : 400 ≤ status ∧ status < 600)
    (h5 : status < 500) :
    retryAux env t mr (fuel + 1) attempt last sleeps
      = ⟨.raisedClient status, attempt + 1, sleeps⟩ := by
  simp only [retryAux, h]
  rw [if_pos hst, if_pos h5]

theorem retryAux_server (env : Nat → HttpEvent) (t mr fuel attempt : Nat)
    (last : Option String) (sleeps : List Nat) (status : Nat) (body : List Nat) (ct : String)
    (h : env attempt = .response status body ct) (hst : 400 ≤ status ∧ status < 600)
    (h5 : ¬status < 500) :
    retryAux env t mr (fuel + 1) attempt last sleeps
      = retryAux env t mr fuel (attempt + 1) (some (http_message status))
          (if attempt < mr - 1 then sleeps ++ [RETRY_DELAY * (attempt + 1)] else sleeps) := by
  simp only [retryAux, h]
  rw [if_pos hst, if_neg h5]

theorem expected_files_names_pairwise (start_num : Nat) (l : List Item) (idx : Nat) :
    (expected_files start_num l idx).Pairwise (fun a b => a.name ≠ b.name) := by
  refine List.Pairwise.imp_of_mem ?_ (expected_files_pairwise start_num l idx)
  intro a b ha hb hlt hname
  obtain ⟨_, _, _, hta⟩ := expected_files_mem start_num l idx a ha
  obtain ⟨_, _, _, htb⟩ := expected_files_mem start_num l idx b hb
  have := image_name_inj a.num b.num a.ext b.ext hta htb hname
  omega

/-! ### Claim theorems -/

/-- C1: for every URL/network environment, timeout and `maxAttempts = 3`,
`download_with_retry` classifies outcomes by attempt count: two transport
timeouts followed by an HTTP 200 with a payload of at least 100 bytes give
the returned response after exactly 3 attempts (and the item is then counted
successful); a single HTTP 404 gives the re-raised client error after
exactly 1 attempt with no retry and no backoff sleep; a persistent HTTP 500
gives the exhausted-retries failure after exactly 3 attempts. -/
theorem C1_retry_outcomes (t : Nat) (envA envB envC : Nat → HttpEvent)
    (body : List Nat) (ct : String) (body4 : List Nat) (ct4 : String)
    (bodyC : Nat → List Nat) (ctC : Nat → String)
    (u : String) (el : Rat) (num : Nat) (st : BatchState)
    (hA0 : envA 0 = .timeout) (hA1 : envA 1 = .timeout)
    (hA2 : envA 2 = .response 200 body ct) (hAbig : 100 ≤ body.length)
    (hB : envB 0 = .response 404 body4 ct4)
    (hC : ∀ i, i < 3 → envC i = .response 500 (bodyC i) (ctC i)) :
    download_with_retry envA t 3
        = ⟨.ok 200 body ct, 3, [RETRY_DELAY * 1, RETRY_DELAY * 2]⟩
    ∧ download_with_retry envB t 3 = ⟨.raisedClient 404, 1, []⟩
    ∧ download_with_retry envC t 3
        = ⟨.raisedExhausted (exhausted_message 3 (some (http_message 500))), 3,
            [RETRY_DELAY * 1, RETRY_DELAY * 2]⟩
    ∧ (process_item ⟨u, envA, el⟩ num st).successful = st.successful + 1 := by
  have hA : download_with_retry envA t 3
      = ⟨.ok 200 body ct, 3, [RETRY_DELAY * 1, RETRY_DELAY * 2]⟩ := by
    show retryAux envA t 3 (2 + 1) 0 none [] = _
    rw [retryAux_timeout envA t 3 2 0 none [] hA0]
    norm_num
    rw [show (2 : Nat) = 1 + 1 from rfl, retryAux_timeout envA t 3 1 1 _ _ hA1]
    norm_num
    rw [show (1 : Nat) = 0 + 1 from rfl,
      retryAux_ok envA t 3 0 2 _ _ 200 body ct hA2 (by omega)]
  refine ⟨hA, ?_, ?_, ?_⟩
  · show retryAux envB t 3 (2 + 1) 0 none [] = _
    rw [retryAux_client envB t 3 2 0 none [] 404 body4 ct4 hB (by omega) (by omega)]
  · show retryAux envC t 3 (2 + 1) 0 none [] = _
    rw [retryAux_server envC t 3 2 0 none [] 500 (bodyC 0) (ctC 0) (hC 0 (by omega))
      (by omega) (by omega)]
    norm_num
    rw [show (2 : Nat) = 1 + 1 from rfl,
      retryAux_server envC t 3 1 1 _ _ 500 (bodyC 1) (ctC 1) (hC 1 (by omega))
        (by omega) (by omega)]
    norm_num
    rw [show (1 : Nat) = 0 + 1 from rfl,
      retryAux_server envC t 3 0 2 _ _ 500 (bodyC 2) (ctC 2) (hC 2 (by omega))
        (by omega) (by omega)]
    rw [if_neg (by omega), retryAux_zero]
  · have hA30 : download_with_retry envA REQUEST_TIMEOUT MAX_RETRIES
        = ⟨.ok 200 body ct, 3, [RETRY_DELAY * 1, RETRY_DELAY * 2]⟩ := by
      show retryAux envA REQUEST_TIMEOUT 3 (2 + 1) 0 none [] = _
      rw [retryAux_timeout envA REQUEST_TIMEOUT 3 2 0 none [] hA0]
      norm_num
      rw [show (2 : Nat) = 1 + 1 from rfl,
        retryAux_timeout envA REQUEST_TIMEOUT 3 1 1 _ _ hA1]
      norm_num
      rw [show (1 : Nat) = 0 + 1 from rfl,
        retryAux_ok envA REQUEST_TIMEOUT 3 0 2 _ _ 200 body ct hA2 (by omega)]
    have hout : (download_with_retry (Item.mk u envA el).events
        REQUEST_TIMEOUT MAX_RETRIES).outcome = .ok 200 body ct := by
      show (download_with_retry envA REQUEST_TIMEOUT MAX_RETRIES).outcome = _
      rw [hA30]
    rw [process_item_ok_big ⟨u, envA, el⟩ num st 200 body ct hout (by omega)]

/-- C1 witness: the three scenarios at the concrete demonstration
environments, with the hypotheses discharged by evaluation. -/
theorem C1_retry_outcomes_witness :
    download_with_retry demoEnvTT 30 3
        = ⟨.ok 200 demoBody "image/jpeg", 3, [RETRY_DELAY * 1, RETRY_DELAY * 2]⟩
    ∧ download_with_retry demoEnv404 30 3 = ⟨.raisedClient 404, 1, []⟩
    ∧ download_with_retry demoEnv500 30 3
        = ⟨.raisedExhausted (exhausted_message 3 (some (http_message 500))), 3,
            [RETRY_DELAY * 1, RETRY_DELAY * 2]⟩ := by
  have h := C1_retry_outcomes 30 demoEnvTT demoEnv404 demoEnv500 demoBody "image/jpeg"
    [] "" (fun _ => []) (fun _ => "") "u" 0 0 initState rfl rfl rfl (by decide) rfl
    (fun i _ => rfl)
  exact ⟨h.1, h.2.1, h.2.2.1⟩

/-- C4: extension resolution follows the spec's three-stage algorithm — the
content-type table with parameter stripping, trimming and lower-casing, the
URL-substring fallback in fixed priority order with `.jpeg` normalised to
`.jpg`, and the `.jpg` default — including the three concrete cases the spec
lists. -/
theorem C4_extension_resolution (declaredContentType sourceId : String) :
    get_file_extension declaredContentType sourceId
        = resolve_spec declaredContentType sourceId
    ∧ get_file_extension "image/jpeg; charset=utf-8" sourceId = ".jpg"
    ∧ get_file_extension "" "http://site/photo.png" = ".png"
    ∧ get_file_extension "" "http://site/photo" = ".jpg" := by
  refine ⟨?_, rfl, by decide, by decide⟩
  unfold get_file_extension resolve_spec
  by_cases hct : declaredContentType ≠ ""
  · rw [if_pos hct, if_pos hct, lookup_eq_spec_table]
    cases h : spec_table (strLower (strStrip (strBeforeSemicolon declaredContentType))) with
    | some e => rfl
    | none => exact fallback_eq sourceId
  · rw [if_neg hct, if_neg hct]
    exact fallback_eq sourceId

/-- C5: the progress accounting computes the mean speed as
`(bytes * 8) / (seconds * 1_000_000)` Mbit/s, reports 0 while the cumulative
time is 0, gives exactly 1 Mbit/s for 1,000,000 bytes over 8 seconds, and
estimates the remaining time as `(elapsed / completed) * (total - completed)`
for `completed > 0`, giving 5 seconds for 5 of 10 items in 5 seconds. -/
theorem C5_progress_model (b : Nat) (time e : Rat) (p tot : Nat) :
    mean_speed b 0 = 0
    ∧ (0 < time → mean_speed b time = ((b : Rat) * 8) / (time * 1000000))
    ∧ mean_speed 1000000 8 = 1
    ∧ (0 < p → remaining_time e p tot = (e / (p : Rat)) * ((tot : Rat) - (p : Rat)))
    ∧ remaining_time 5 5 10 = 5 := by
  refine ⟨?_, ?_, ?_, ?_, ?_⟩
  · simp [mean_speed]
  · intro h
    rw [mean_speed, if_pos h]
  · norm_num [mean_speed]
  · intro _
    rfl
  · norm_num [remaining_time]

/-- C5 witness: the formulas evaluated at concrete totals, with the
positivity hypotheses discharged numerically. -/
theorem C5_progress_model_witness :
    mean_speed 1000000 8 = ((1000000 : Nat) : Rat) * 8 / (8 * 1000000)
    ∧ remaining_time 5 5 10 = (5 / ((5 : Nat) : Rat)) * (((10 : Nat) : Rat) - ((5 : Nat) : Rat)) := by
  exact ⟨(C5_progress_model 1000000 8 0 0 0).2.1 (by norm_num),
    (C5_progress_model 0 0 5 5 10).2.2.2.1 (by norm_num)⟩

/-- C2: with the cancellation flag read as true from check `k` on (the flag
is set after `k` of `n` items), the batch loop processes exactly the first
`k` items — the final state equals that of an uncancelled run on the first
`k` items — the summary reports the cancellation, and
`successCount + failureCount = k`; the remaining items are neither attempted
nor counted. -/
theorem C2_cancellation (items : List Item) (k start_num : Nat)
    (hk : k ≤ items.length) :
    (download_run (fun i => decide (k ≤ i)) items start_num).1
        = (download_run (fun _ => false) (items.take k) start_num).1
    ∧ (download_run (fun i => decide (k ≤ i)) items start_num).1.successful
        + (download_run (fun i => decide (k ≤ i)) items start_num).1.failed = k
    ∧ (download_run (fun i => decide (k ≤ i)) items start_num).2.cancelled = true := by
  have hloop := loop_cancel_take start_num k items 0 initState (Nat.zero_le k)
  rw [Nat.sub_zero] at hloop
  have hflag := loop_cancel_flag start_num k items 0 initState (by omega)
  have hcounts := loop_nocancel_counts start_num (items.take k) 0 initState
  have hlen : (items.take k).length = k := by
    rw [List.length_take]
    omega
  refine ⟨hloop, ?_, ?_⟩
  · show (download_loop (fun i => decide (k ≤ i)) start_num items 0 initState).1.successful
        + (download_loop (fun i => decide (k ≤ i)) start_num items 0 initState).1.failed = k
    rw [hloop]
    rw [hlen] at hcounts
    rw [hcounts]
    show 0 + 0 + k = k
    omega
  · show (make_summary
        (download_loop (fun i => decide (k ≤ i)) start_num items 0 initState).2
        (download_loop (fun i => decide (k ≤ i)) start_num items 0 initState).1
        items.length).cancelled = true
    rw [hflag]
    rfl

/-- C2 witness: flag set after 1 of 2 items — exactly one item is counted
and the summary reports the cancellation. -/
theorem C2_cancellation_witness :
    (download_run (fun i => decide (1 ≤ i)) [demoItemOK, demoItem404] 1).1.successful
        + (download_run (fun i => decide (1 ≤ i)) [demoItemOK, demoItem404] 1).1.failed = 1
    ∧ (download_run (fun i => decide (1 ≤ i)) [demoItemOK, demoItem404] 1).2.cancelled
        = true := by
  have h := C2_cancellation [demoItemOK, demoItem404] 1 1 (by decide)
  exact ⟨h.2.1, h.2.2⟩

/-- C3: the starting-index computation returns 1 on an empty or fully
non-matching set, returns `1 + max(matched numbers)` when matches exist
(gaps preserved, e.g. 1, 2, 5 yield 6), and handles arbitrarily large
numeric suffixes without truncation (e.g. `2 ^ 64` is exceeded exactly). -/
theorem C3_start_index (names : List String) :
    starting_num ([] : List String) = 1
    ∧ ((∀ name ∈ names, re_search_image name.data = none) → starting_num names = 1)
    ∧ (∀ m ∈ matched_nums names, m < starting_num names)
    ∧ (matched_nums names ≠ [] →
        ∃ m ∈ matched_nums names, (∀ x ∈ matched_nums names, x ≤ m)
          ∧ starting_num names = 1 + m)
    ∧ starting_num ["image_1.jpg", "image_2.png", "image_5.gif"] = 6
    ∧ starting_num ["image_18446744073709551616.jpg"] = 18446744073709551617 := by
  have hs : scan_max_num names = (matched_nums names).foldl Nat.max 0 := scan_eq_fold names 0
  refine ⟨rfl, ?_, ?_, ?_, by decide, by decide⟩
  · intro h
    have hm : matched_nums names = [] := by
      unfold matched_nums
      exact List.filterMap_eq_nil_iff.mpr h
    unfold starting_num
    rw [hs, hm]
    rfl
  · intro m hm
    unfold starting_num
    rw [hs]
    have := foldl_max_le (matched_nums names) 0 m hm
    omega
  · intro hne
    rcases foldl_max_mem (matched_nums names) 0 with h0 | hmem
    · obtain ⟨x, xs, hx⟩ := List.exists_cons_of_ne_nil hne
      have hxmem : x ∈ matched_nums names := by
        rw [hx]
        exact List.mem_cons_self x xs
      have hx' := foldl_max_le (matched_nums names) 0 x hxmem
      refine ⟨x, hxmem, ?_, ?_⟩
      · intro y hy
        have hy' := foldl_max_le (matched_nums names) 0 y hy
        omega
      · unfold starting_num
        rw [hs]
        omega
    · refine ⟨(matched_nums names).foldl Nat.max 0, hmem, ?_, ?_⟩
      · intro y hy
        exact foldl_max_le (matched_nums names) 0 y hy
      · unfold starting_num
        rw [hs]
        omega

/-- C3 witness: a set with no matching name yields starting index 1. -/
theorem C3_start_index_witness :
    starting_num ["photo_1.jpg", "note.txt"] = 1 :=
  (C3_start_index ["photo_1.jpg", "note.txt"]).2.1 (by decide)

/-- C9: a name contributes to the starting-index scan only when the pattern
`image_` + digits + dot + word character occurs in it (the captured number
is the digit run of the leftmost occurrence, so the first match wins); any
name in which the pattern does not occur is silently ignored and changes
nothing. -/
theorem C9_scan_pattern (name : String) (names1 names2 : List String) :
    (re_search_image name.data = none →
        starting_num (names1 ++ name :: names2) = starting_num (names1 ++ names2))
    ∧ (∀ n, re_search_image name.data = some n →
        ∃ pre ds c rest, name.data = pre ++ ("image_".data ++ ds ++ '.' :: c :: rest)
          ∧ ds ≠ [] ∧ (∀ d ∈ ds, isDigitC d = true) ∧ isWordC c = true
          ∧ n = digitsToNat ds)
    ∧ re_search_image ("image_3.image_7.jpg".data) = some 3
    ∧ re_search_image ("photo_1.jpg".data) = none
    ∧ re_search_image ("image_x.jpg".data) = none
    ∧ re_search_image ("image_5".data) = none := by
  refine ⟨?_, ?_, by decide, by decide, by decide, by decide⟩
  · intro h
    unfold starting_num scan_max_num
    simp only [List.foldl_append, List.foldl_cons, h]
  · intro n hn
    obtain ⟨pre, suff, heq, hma⟩ := re_search_sound name.data n hn
    obtain ⟨ds, c, rest, hsuf, hne, hdig, hw, hval⟩ := matchAt_sound suff n hma
    exact ⟨pre, ds, c, rest, by rw [heq, hsuf], hne, hdig, hw, hval⟩

/-- C9 witness: a non-matching name contributes nothing to the scan. -/
theorem C9_scan_pattern_witness :
    starting_num (([] : List String) ++ "photo_1.jpg" :: [])
      = starting_num (([] : List String) ++ []) :=
  (C9_scan_pattern "photo_1.jpg" [] []).1 (by decide)

/-- C6: output numbering is strictly increasing and never reused — the item
at position `i` is assigned number `startIndex + i` whether or not its fetch
succeeds, only successful items write files, each file is named from its own
assigned number, and no two files of one run share a name. -/
theorem C6_output_indexing (cancel : Nat → Bool) (items : List Item) (start_num : Nat) :
    (download_run (fun _ => false) items start_num).1.files
        = expected_files start_num items 0
    ∧ ((download_run cancel items start_num).1.files).Pairwise (fun a b => a.num < b.num)
    ∧ ((download_run cancel items start_num).1.files).Pairwise (fun a b => a.name ≠ b.name)
    ∧ (∀ f ∈ (download_run cancel items start_num).1.files,
        ∃ i, i < items.length ∧ f.num = start_num + i
          ∧ f.name = image_name (start_num + i) f.ext) := by
  have hff : (download_run (fun _ => false) items start_num).1.files
      = expected_files start_num items 0 := by
    show (download_loop (fun _ => false) start_num items 0 initState).1.files = _
    rw [loop_files]
    show ([] : List FileRec) ++ _ = _
    rw [List.nil_append]
  obtain ⟨m, hm, heq⟩ := loop_prefix cancel start_num items 0 initState
  have hgen : (download_run cancel items start_num).1.files
      = expected_files start_num (items.take m) 0 := by
    show (download_loop cancel start_num items 0 initState).1.files = _
    rw [heq, loop_files]
    show ([] : List FileRec) ++ _ = _
    rw [List.nil_append]
  refine ⟨hff, ?_, ?_, ?_⟩
  · rw [hgen]
    exact expected_files_pairwise start_num (items.take m) 0
  · rw [hgen]
    exact expected_files_names_pairwise start_num (items.take m) 0
  · intro f hf
    rw [hgen] at hf
    obtain ⟨j, hj, hnum, _⟩ := expected_files_mem start_num (items.take m) 0 f hf
    have hlen : (items.take m).length ≤ items.length := by
      rw [List.length_take]
      omega
    have hnum' : f.num = start_num + j := by omega
    refine ⟨j, by omega, hnum', ?_⟩
    show image_name f.num f.ext = image_name (start_num + j) f.ext
    rw [hnum']

/-- C6 witness: a three-item run (success, client error, success) starting
at 4 writes exactly the files numbered 4 and 6 — the failed item consumed
number 5 — with distinct names. -/
theorem C6_output_indexing_witness :
    (download_run (fun _ => false) [demoItemOK, demoItem404, demoItemOK] 4).1.files
        = expected_files 4 [demoItemOK, demoItem404, demoItemOK] 0
    ∧ (download_run (fun _ => false) [demoItemOK, demoItem404, demoItemOK] 4).1.files
        = [⟨4, ".png", demoBody⟩, ⟨6, ".png", demoBody⟩] := by
  exact ⟨(C6_output_indexing (fun _ => false) [demoItemOK, demoItem404, demoItemOK] 4).1,
    by decide⟩

/-- C7: a fetch whose first attempt yields a 2xx response with a payload
under 100 bytes makes exactly one attempt, sleeps never, is recorded as the
too-small failure, writes nothing, and the result never depends on what the
network would have returned on later attempts. -/
theorem C7_too_small_not_retried (item : Item) (num : Nat) (st : BatchState)
    (status : Nat) (body : List Nat) (ct : String)
    (h0 : item.events 0 = .response status body ct)
    (h2xx : 200 ≤ status ∧ status < 300) (hsmall : body.length < 100) :
    download_with_retry item.events REQUEST_TIMEOUT MAX_RETRIES
        = ⟨.ok status body ct, 1, []⟩
    ∧ process_item item num st = record_failure st item.url too_small_message
    ∧ (process_item item num st).failed = st.failed + 1
    ∧ (process_item item num st).files = st.files
    ∧ (∀ env2 : Nat → HttpEvent, env2 0 = item.events 0 →
        download_with_retry env2 REQUEST_TIMEOUT MAX_RETRIES
          = download_with_retry item.events REQUEST_TIMEOUT MAX_RETRIES) := by
  have htrace : download_with_retry item.events REQUEST_TIMEOUT MAX_RETRIES
      = ⟨.ok status body ct, 1, []⟩ := by
    show retryAux item.events REQUEST_TIMEOUT 3 (2 + 1) 0 none [] = _
    rw [retryAux_ok item.events REQUEST_TIMEOUT 3 2 0 none [] status body ct h0 (by omega)]
  have hout : (download_with_retry item.events REQUEST_TIMEOUT MAX_RETRIES).outcome
      = .ok status body ct := by rw [htrace]
  have hproc := process_item_ok_small item num st status body ct hout hsmall
  refine ⟨htrace, hproc, by rw [hproc]; rfl, by rw [hproc]; rfl, ?_⟩
  intro env2 h2
  have h20 : env2 0 = .response status body ct := by rw [h2, h0]
  have henv2 : download_with_retry env2 REQUEST_TIMEOUT MAX_RETRIES
      = ⟨.ok status body ct, 1, []⟩ := by
    show retryAux env2 REQUEST_TIMEOUT 3 (2 + 1) 0 none [] = _
    rw [retryAux_ok env2 REQUEST_TIMEOUT 3 2 0 none [] status body ct h20 (by omega)]
  rw [henv2, htrace]

/-- C7 witness: the 3-byte 200 response is recorded as a too-small failure
after a single attempt. -/
theorem C7_too_small_not_retried_witness :
    process_item demoItemSmall 9 initState
        = record_failure initState demoItemSmall.url too_small_message
    ∧ (download_with_retry demoItemSmall.events REQUEST_TIMEOUT MAX_RETRIES).attempts
        = 1 := by
  have h := C7_too_small_not_retried demoItemSmall 9 initState 200 [1, 2, 3] ""
    rfl (by decide) (by decide)
  exact ⟨h.2.1, by rw [h.1]⟩

/-- C10: an item whose outcome is any failure (client error, exhausted
retries, or a too-small 2xx payload) writes nothing — the destination
directory is unchanged — and a file is written only on the success path
after the fetch returned a response of at least 100 bytes. -/
theorem C10_failed_items_write_nothing (item : Item) (num : Nat) (st : BatchState) :
    (∀ status, (download_with_retry item.events REQUEST_TIMEOUT MAX_RETRIES).outcome
        = .raisedClient status → (process_item item num st).files = st.files)
    ∧ (∀ message, (download_with_retry item.events REQUEST_TIMEOUT MAX_RETRIES).outcome
        = .raisedExhausted message → (process_item item num st).files = st.files)
    ∧ (∀ status body ct,
        (download_with_retry item.events REQUEST_TIMEOUT MAX_RETRIES).outcome
            = .ok status body ct → body.length < 100 →
        (process_item item num st).files = st.files)
    ∧ (∀ status body ct,
        (download_with_retry item.events REQUEST_TIMEOUT MAX_RETRIES).outcome
            = .ok status body ct → 100 ≤ body.length →
        (process_item item num st).files
          = st.files ++ [⟨num, get_file_extension ct item.url, body⟩]) := by
  refine ⟨?_, ?_, ?_, ?_⟩
  · intro status h
    rw [process_item_client item num st status h]
    rfl
  · intro message h
    rw [process_item_exhausted item num st message h]
    rfl
  · intro status body ct h hlen
    rw [process_item_ok_small item num st status body ct h hlen]
    rfl
  · intro status body ct h hlen
    rw [process_item_ok_big item num st status body ct h (by omega)]

/-- C10 witness: the 404 item leaves the directory contents unchanged. -/
theorem C10_failed_items_write_nothing_witness :
    (process_item demoItem404 3 initState).files = initState.files :=
  (C10_failed_items_write_nothing demoItem404 3 initState).1 404 (by decide)

/-- The completed-run summary with no failures recorded, spelled out. -/
theorem make_summary_false_eq (st : BatchState) (total : Nat) :
    make_summary false st total
      = ⟨st.successful, st.failed, false,
          if st.failed > 0 then st.failed_urls.head? else none, none⟩ := rfl

/-- The cancelled-run summary, spelled out. -/
theorem make_summary_true_eq (st : BatchState) (total : Nat) :
    make_summary true st total
      = ⟨st.successful, st.failed, true, none,
          some (total - st.successful - st.failed)⟩ := rfl

/-- Both summary branches report the final counts. -/
theorem make_summary_counts (c : Bool) (st : BatchState) (total : Nat) :
    (make_summary c st total).successful = st.successful
    ∧ (make_summary c st total).failed = st.failed := by
  cases c <;> exact ⟨rfl, rfl⟩

/-- C8 (amended): every per-item error is recovered locally — it increments
`failed` by exactly one, appends `(url, message)`, and the batch continues,
so an uncancelled run always attempts every item; the summary reports the
final counts, and whenever `failed > 0` and the run was not cancelled it
carries the first recorded failure.  (A cancelled run's summary reports only
the counts and the remaining total.) -/
theorem C8_local_recovery (cancel : Nat → Bool) (items : List Item) (start_num : Nat)
    (item : Item) (num : Nat) (st : BatchState) :
    ((∃ msg, process_item item num st = record_failure st item.url msg
        ∧ (process_item item num st).failed = st.failed + 1
        ∧ (process_item item num st).failed_urls = st.failed_urls ++ [(item.url, msg)]
        ∧ (process_item item num st).successful = st.successful)
      ∨ ((process_item item num st).successful = st.successful + 1
        ∧ (process_item item num st).failed = st.failed
        ∧ (process_item item num st).failed_urls = st.failed_urls))
    ∧ ((download_run (fun _ => false) items start_num).1.successful
        + (download_run (fun _ => false) items start_num).1.failed = items.length)
    ∧ (download_run cancel items start_num).2.successful
        = (download_run cancel items start_num).1.successful
    ∧ (download_run cancel items start_num).2.failed
        = (download_run cancel items start_num).1.failed
    ∧ ((download_run cancel items start_num).2.cancelled = false →
        0 < (download_run cancel items start_num).2.failed →
        ∃ p, (download_run cancel items start_num).2.firstFailure = some p) := by
  refine ⟨?_, ?_, ?_, ?_, ?_⟩
  · rcases process_item_cases item num st with ⟨msg, hp⟩ | ⟨status, body, ct, _, _, hp⟩
    · exact Or.inl ⟨msg, hp, by rw [hp]; rfl, by rw [hp]; rfl, by rw [hp]; rfl⟩
    · exact Or.inr ⟨by rw [hp], by rw [hp], by rw [hp]⟩
  · have hcounts := loop_nocancel_counts start_num items 0 initState
    show (download_loop (fun _ => false) start_num items 0 initState).1.successful
        + (download_loop (fun _ => false) start_num items 0 initState).1.failed
      = items.length
    rw [hcounts]
    show 0 + 0 + items.length = items.length
    omega
  · show (make_summary (download_loop cancel start_num items 0 initState).2
        (download_loop cancel start_num items 0 initState).1 items.length).successful
      = (download_loop cancel start_num items 0 initState).1.successful
    exact (make_summary_counts _ _ _).1
  · show (make_summary (download_loop cancel start_num items 0 initState).2
        (download_loop cancel start_num items 0 initState).1 items.length).failed
      = (download_loop cancel start_num items 0 initState).1.failed
    exact (make_summary_counts _ _ _).2
  · have hurl := loop_url_count cancel start_num items 0 initState rfl
    show (make_summary (download_loop cancel start_num items 0 initState).2
        (download_loop cancel start_num items 0 initState).1 items.length).cancelled = false →
      0 < (make_summary (download_loop cancel start_num items 0 initState).2
        (download_loop cancel start_num items 0 initState).1 items.length).failed →
      ∃ p, (make_summary (download_loop cancel start_num items 0 initState).2
        (download_loop cancel start_num items 0 initState).1 items.length).firstFailure
          = some p
    cases hc2 : (download_loop cancel start_num items 0 initState).2 with
    | false =>
      intro _ hf
      rw [make_summary_false_eq] at hf ⊢
      have hf' : 0 < (download_loop cancel start_num items 0 initState).1.failed := hf
      have hne : (download_loop cancel start_num items 0 initState).1.failed_urls ≠ [] := by
        intro hnil
        rw [hnil] at hurl
        simp only [List.length_nil] at hurl
        omega
      obtain ⟨p, t, hpt⟩ := List.exists_cons_of_ne_nil hne
      refine ⟨p, ?_⟩
      show (if (download_loop cancel start_num items 0 initState).1.failed > 0
          then (download_loop cancel start_num items 0 initState).1.failed_urls.head?
          else none) = some p
      rw [if_pos hf', hpt]
      rfl
    | true =>
      intro hc _
      rw [make_summary_true_eq] at hc
      exact Bool.noConfusion hc

/-- C8 witness: an uncancelled single-item run whose item fails counts the
failure, finishes the batch, and surfaces an example failure in the
summary. -/
theorem C8_local_recovery_witness :
    (download_run (fun _ => false) [demoItem404] 1).1.successful
        + (download_run (fun _ => false) [demoItem404] 1).1.failed = 1
    ∧ (∃ p, (download_run (fun _ => false) [demoItem404] 1).2.firstFailure = some p) := by
  have h := C8_local_recovery (fun _ => false) [demoItem404] 1 demoItem404 1 initState
  exact ⟨h.2.1, h.2.2.2.2 (by decide) (by decide)⟩

/-- C8 counterexample: a run cancelled right after its single failing item
has `failureCount = 1` yet its summary carries no example failure message,
so the unamended claim — an example message whenever `failureCount > 0` —
fails on the cancelled branch. -/
theorem C8_counterexample :
    0 < (download_run (fun i => decide (1 ≤ i)) [demoItem404] 1).2.failed
    ∧ (download_run (fun i => decide (1 ≤ i)) [demoItem404] 1).2.firstFailure = none := by
  exact ⟨by decide, by decide⟩

end INat
